import Mathlib

/-!
Verification of the antfarm run-creation and Linear-sync code.

Shallow embedding of:
* `src/installer/run.ts` — `runWorkflow` (run creation: initial context,
  Linear story import, step materialization, the insert transaction, the
  post-commit cron bootstrap and its compensating update);
* the Linear adapter (`linear-hooks.ts`, shipped inside
  `skills/antfarm-workflows/SKILL.md`) — `exportProjectStories`,
  `exportIssueStory`, `parseAcceptanceCriteria`, `ensureLabel`,
  `moveIssue`, `addComment`, `resolveStateId`.

External effects are modelled by oracles: every Linear CLI invocation is a
field of `LinearCli` returning `Except String _` (an `.error` models the
CLI throwing), SQLite inserts consult a failure oracle `insertFails`
indexed by the position of the insert inside the transaction, and
`ensureWorkflowCrons` is the boolean oracle `cronOk`.  `crypto.randomUUID`
is a supply `uuid : Nat → String`, timestamps are the oracle values
`now` / `now2`.  JavaScript string truthiness (`undefined` and `""` are
falsy) is `truthy`; `a || b` on strings is `jsOrStr`.
-/

namespace Antfarm

/-! ### Characters and strings

The TypeScript code uses `String.prototype.split`, `trim`, `toLowerCase`
and two line-anchored regular expressions.  These are embedded as
structurally recursive functions on `List Char` so that every definition
evaluates inside the kernel. -/

/-- Whitespace test used for the regex classes `\s` and for `trim`
(space, tab, carriage return, newline). -/
def isWsChar (c : Char) : Bool :=
  c == ' ' || c == '\t' || c == '\r' || c == '\n'

/-- Split a character list at every occurrence of `sep`; mirrors
`String.prototype.split` with a single-character separator (an empty
input yields one empty field, like `"".split(":")`). -/
def splitFields (sep : Char) : List Char → List (List Char)
  | [] => [[]]
  | c :: cs =>
    match splitFields sep cs with
    | [] => if c == sep then [[], []] else [[c]]
    | f :: rest => if c == sep then [] :: f :: rest else (c :: f) :: rest

/-- Drop leading whitespace. -/
def dropWs (cs : List Char) : List Char :=
  cs.dropWhile (fun c => isWsChar c)

/-- Both-sided trim on character lists, mirroring `String.prototype.trim`. -/
def trimChars (cs : List Char) : List Char :=
  (dropWs (dropWs cs).reverse).reverse

/-- JavaScript truthiness of an optional string: `undefined` and `""` are
falsy, every other string is truthy. -/
def truthy : Option String → Bool
  | some s => !(s == "")
  | none => false

/-- JavaScript `a || b` on strings: `""` is falsy. -/
def jsOrStr (a b : String) : String :=
  if a == "" then b else a

/-- Lower-casing via `Char.toLower`, mirroring `String.prototype.toLowerCase`
for the ASCII state names the code compares. -/
def toLowerStr (s : String) : String :=
  String.mk (s.toList.map Char.toLower)

/-! ### Insertion-ordered string maps

JavaScript objects and `Map` both keep insertion order and overwrite the
value (in place) when a key is written again.  `Ctx` models them as an
association list; `ctxSet` replaces the first binding of the key or
appends a fresh one, `ctxGet` reads the first binding. -/

/-- Insertion-ordered string-to-string mapping (JS object / `Map`). -/
abbrev Ctx := List (String × String)

/-- Write a key: overwrite the existing binding in place, else append. -/
def ctxSet : Ctx → String → String → Ctx
  | [], k, v => [(k, v)]
  | p :: c, k, v => if p.1 == k then (k, v) :: c else p :: ctxSet c k v

/-- Read a key. -/
def ctxGet (c : Ctx) (k : String) : Option String :=
  (c.find? (fun p => p.1 == k)).map (fun p => p.2)

/-- Write a whole list of bindings in order (object spread `{...m}`). -/
def ctxSetAll (c : Ctx) (kvs : List (String × String)) : Ctx :=
  kvs.foldl (fun acc kv => ctxSet acc kv.1 kv.2) c

/-! ### Linear data and CLI oracle -/

/-- A Linear issue as returned by `linear project issues --json`
(`LinearIssue` in linear-hooks.ts; the `state` and `labels` fields are
unused by the embedded functions and omitted).  `sortOrder` is modelled
as an integer: the code only compares it. -/
structure LinearIssue where
  id : String
  identifier : String
  title : String
  description : String
  priority : Nat
  sortOrder : Int
deriving Repr, DecidableEq, Inhabited

/-- A story in feature-dev format (`LinearStory` in linear-hooks.ts). -/
structure LinearStory where
  id : String
  title : String
  description : String
  acceptanceCriteria : List String
  linearIssueId : String
  linearIdentifier : String
deriving Repr, DecidableEq, Inhabited

/-- A label row from `linear label list`. -/
structure LabelInfo where
  id : String
  name : String
deriving Repr, DecidableEq, Inhabited

/-- A workflow state row from `linear state list --team`. -/
structure NamedState where
  id : String
  name : String
deriving Repr, DecidableEq, Inhabited

/-- Oracle for the `linear` CLI: one field per invocation shape used by
linear-hooks.ts.  `.error` models `execFileSync` (or JSON decoding)
throwing, which `linearExec` re-throws. -/
structure LinearCli where
  stateList : String → Except String (List NamedState)
  issueMove : String → String → Except String Unit
  commentCreate : String → String → Except String Unit
  labelList : Except String (List LabelInfo)
  labelCreate : String → Except String String
  projectIssues : String → Except String (List LinearIssue)
  issueGet : String → Except String LinearIssue

/-! ### parseAcceptanceCriteria -/

/-- Match of one line against the checkbox regex
`^[-*]\s*\[[ x]\]\s*(.+)$`, returning the trimmed capture. -/
def checkboxItem (line : List Char) : Option String :=
  match line with
  | [] => none
  | c :: rest =>
    if c == '-' || c == '*' then
      match dropWs rest with
      | '[' :: m :: ']' :: tail =>
        if (m == ' ' || m == 'x') && !tail.isEmpty then
          some (String.mk (trimChars tail))
        else none
      | _ => none
    else none

/-- Match of one line against the numbered-list regex `^\d+\.\s+(.+)$`,
returning the trimmed capture. -/
def numberedItem (line : List Char) : Option String :=
  let digits := line.takeWhile (fun c => c.isDigit)
  if digits.isEmpty then none
  else
    match line.drop digits.length with
    | '.' :: w :: tail =>
      if isWsChar w && !tail.isEmpty then some (String.mk (trimChars tail))
      else none
    | _ => none

/-- Embeds `parseAcceptanceCriteria` (linear-hooks.ts): checkbox items
first, then numbered items, then the generic fallback; a non-empty
extraction is capped with "Typecheck passes". -/
def parseAcceptanceCriteria (description : String) : List String :=
  let lines := splitFields '\n' description.toList
  let checkbox := lines.filterMap checkboxItem
  if !checkbox.isEmpty then checkbox ++ ["Typecheck passes"]
  else
    let numbered := lines.filterMap numberedItem
    if !numbered.isEmpty then numbered ++ ["Typecheck passes"]
    else
      ["Implementation matches the issue description",
       "Tests for the feature pass",
       "Typecheck passes"]

/-! ### exportProjectStories / exportIssueStory -/

/-- Priority with `0` (no priority) mapped to `5`, i.e. below `4 = low`
(the comparator in `exportProjectStories`). -/
def priorityKey (p : Nat) : Nat :=
  if p = 0 then 5 else p

/-- Boolean form of the sort comparator of `exportProjectStories`:
`a` may precede `b` iff the comparator returns a non-positive number. -/
def issueLe (a b : LinearIssue) : Bool :=
  if priorityKey a.priority = priorityKey b.priority then
    decide (a.sortOrder ≤ b.sortOrder)
  else
    decide (priorityKey a.priority < priorityKey b.priority)

/-- The comparator as a relation, for the sort. -/
def issueRel (a b : LinearIssue) : Prop :=
  issueLe a b = true

instance : DecidableRel issueRel :=
  fun a b => inferInstanceAs (Decidable (issueLe a b = true))

instance : IsTotal LinearIssue issueRel :=
  ⟨by
    intro a b
    simp only [issueRel, issueLe]
    by_cases h : priorityKey a.priority = priorityKey b.priority
    · rw [if_pos h, if_pos h.symm]
      simp only [decide_eq_true_eq]
      exact Int.le_total a.sortOrder b.sortOrder
    · rw [if_neg h, if_neg (fun hh => h hh.symm)]
      simp only [decide_eq_true_eq]
      omega⟩

instance : IsTrans LinearIssue issueRel :=
  ⟨by
    intro a b c hab hbc
    simp only [issueRel, issueLe] at hab hbc ⊢
    by_cases h1 : priorityKey a.priority = priorityKey b.priority
    · rw [if_pos h1] at hab
      simp only [decide_eq_true_eq] at hab
      by_cases h2 : priorityKey b.priority = priorityKey c.priority
      · rw [if_pos h2] at hbc
        simp only [decide_eq_true_eq] at hbc
        rw [if_pos (h1.trans h2)]
        simp only [decide_eq_true_eq]
        exact le_trans hab hbc
      · rw [if_neg h2] at hbc
        simp only [decide_eq_true_eq] at hbc
        rw [if_neg (by omega : ¬ priorityKey a.priority = priorityKey c.priority)]
        simp only [decide_eq_true_eq]
        omega
    · rw [if_neg h1] at hab
      simp only [decide_eq_true_eq] at hab
      by_cases h2 : priorityKey b.priority = priorityKey c.priority
      · rw [if_neg (by omega : ¬ priorityKey a.priority = priorityKey c.priority)]
        simp only [decide_eq_true_eq]
        omega
      · rw [if_neg h2] at hbc
        simp only [decide_eq_true_eq] at hbc
        rw [if_neg (by omega : ¬ priorityKey a.priority = priorityKey c.priority)]
        simp only [decide_eq_true_eq]
        omega⟩

/-- Stable sort by the comparator.  `Array.prototype.sort` is a stable
sort (ECMAScript 2019), and `List.insertionSort` is stable, sorted and a
permutation, which is all the development uses. -/
def sortIssues (issues : List LinearIssue) : List LinearIssue :=
  List.insertionSort issueRel issues

/-- Two-wide zero padding, mirroring `String(n).padStart(2, "0")`. -/
def padStart2 (s : String) : String :=
  String.mk (List.replicate (2 - s.length) '0') ++ s

/-- Sequential story identifier: `S01`, `S02`, …  for 0-based position `i`. -/
def storyIdFor (i : Nat) : String :=
  "S" ++ padStart2 (Nat.repr (i + 1))

/-- Story built from the issue at 0-based sorted position `i`
(the `sorted.map((issue, i) => ...)` body shared by
`exportProjectStories` and, at `i = 0`, by `exportIssueStory`). -/
def mkStoryFromIssue (i : Nat) (issue : LinearIssue) : LinearStory :=
  { id := storyIdFor i
    title := "[" ++ issue.identifier ++ "] " ++ issue.title
    description := jsOrStr issue.description issue.title
    acceptanceCriteria := parseAcceptanceCriteria (jsOrStr issue.description issue.title)
    linearIssueId := issue.id
    linearIdentifier := issue.identifier }

/-- Embeds `exportProjectStories` (linear-hooks.ts): fetch the project's
issues, throw if there are none (a JSON `null` behaves like the empty
list there and is modelled as such), sort by (priority, sortOrder) and
number the stories sequentially. -/
def exportProjectStories (cli : LinearCli) (projectId : String) :
    Except String (List LinearStory) :=
  match cli.projectIssues projectId with
  | .error e => .error e
  | .ok issues =>
    if issues.isEmpty then
      .error ("No issues found in Linear project " ++ projectId)
    else
      .ok ((sortIssues issues).enum.map (fun pr => mkStoryFromIssue pr.1 pr.2))

/-- Embeds `exportIssueStory` (linear-hooks.ts): one story, id `S01`. -/
def exportIssueStory (cli : LinearCli) (issueId : String) :
    Except String (List LinearStory) :=
  match cli.issueGet issueId with
  | .error e => .error e
  | .ok issue => .ok [mkStoryFromIssue 0 issue]

/-! ### Status-sync hooks (moveIssue / addComment / ensureLabel)

Each hook returns its value together with the list of warnings it logged;
an `.error` result would model an uncaught exception reaching the
caller. -/

/-- Embeds `resolveStateId` with `getTeamStates` inlined (the module-level
memo cache is dropped: the oracle is deterministic, so caching does not
change any result).  The name map keeps the last binding of a repeated
lowercased name, like `Map.set`. -/
def resolveStateId (cli : LinearCli) (teamId stateName : String) :
    Except String (Option String) :=
  match cli.stateList teamId with
  | .error e => .error e
  | .ok states =>
    let m := states.foldl (fun acc s => ctxSet acc (toLowerStr s.name) s.id) ([] : Ctx)
    .ok (ctxGet m (toLowerStr stateName))

/-- The `try` body of `moveIssue`: resolve the state id when a team is
given and the id is truthy, else fall back to moving by state name. -/
def moveIssueBody (cli : LinearCli) (issueId stateName : String)
    (teamId : Option String) : Except String Unit :=
  if truthy teamId then
    match resolveStateId cli (teamId.getD "") stateName with
    | .error e => .error e
    | .ok stateId =>
      if truthy stateId then cli.issueMove issueId (stateId.getD "")
      else cli.issueMove issueId stateName
  else cli.issueMove issueId stateName

/-- Embeds `moveIssue` (linear-hooks.ts): the whole body is wrapped in
`try`/`catch`, a failure is logged and swallowed. -/
def moveIssue (cli : LinearCli) (issueId stateName : String)
    (teamId : Option String) : Except String (Unit × List String) :=
  match moveIssueBody cli issueId stateName teamId with
  | .ok _ => .ok ((), [])
  | .error e =>
    .ok ((), ["Failed to move Linear issue " ++ issueId ++ " to " ++ stateName ++ ": " ++ e])

/-- Embeds `addComment` (linear-hooks.ts): log-and-swallow on failure. -/
def addComment (cli : LinearCli) (issueId body : String) :
    Except String (Unit × List String) :=
  match cli.commentCreate issueId body with
  | .ok _ => .ok ((), [])
  | .error e =>
    .ok ((), ["Failed to comment on Linear issue " ++ issueId ++ ": " ++ e])

/-- The `try` body of `ensureLabel`: find the label by exact name, else
create it; either way an id is produced. -/
def ensureLabelBody (cli : LinearCli) (name : String) : Except String String :=
  match cli.labelList with
  | .error e => .error e
  | .ok labels =>
    match labels.find? (fun l => l.name == name) with
    | some existing => .ok existing.id
    | none => cli.labelCreate name

/-- Embeds `ensureLabel` (linear-hooks.ts): on any CLI failure it logs a
warning and returns `null` (here `none`) instead of raising. -/
def ensureLabel (cli : LinearCli) (name : String) :
    Except String (Option String × List String) :=
  match ensureLabelBody cli name with
  | .ok lblId => .ok (some lblId, [])
  | .error e =>
    .ok (none, ["Failed to ensure Linear label " ++ name ++ ": " ++ e])

/-! ### Persisted rows and the store

One structure per SQLite table touched by `runWorkflow`, with one field
per column of the corresponding `INSERT` statement. -/

/-- A row of the `runs` table. -/
structure RunRow where
  id : String
  runNumber : Nat
  workflowId : String
  task : String
  status : String
  context : Ctx
  notifyUrl : Option String
  createdAt : String
  updatedAt : String
deriving Repr, DecidableEq, Inhabited

/-- A row of the `steps` table. -/
structure StepRow where
  id : String
  runId : String
  stepId : String
  agentId : String
  stepIndex : Nat
  inputTemplate : String
  expects : String
  status : String
  maxRetries : Nat
  stepType : String
  loopConfig : Option String
  createdAt : String
  updatedAt : String
deriving Repr, DecidableEq, Inhabited

/-- A row of the `stories` table. -/
structure StoryRow where
  id : String
  runId : String
  storyIndex : Nat
  storyId : String
  title : String
  description : String
  acceptanceCriteria : List String
  status : String
  retryCount : Nat
  maxRetries : Nat
  createdAt : String
  updatedAt : String
deriving Repr, DecidableEq, Inhabited

/-- The three tables `runWorkflow` writes. -/
structure DbState where
  runs : List RunRow
  steps : List StepRow
  stories : List StoryRow
deriving Repr, DecidableEq, Inhabited

/-! ### Workflow specification and call parameters -/

/-- The `on_fail` block of a step definition. -/
structure OnFail where
  max_retries : Option Nat
deriving Repr, DecidableEq, Inhabited

/-- One step definition of a workflow specification (the fields of
`workflow.steps[i]` read by `runWorkflow`). -/
structure WorkflowStep where
  id : String
  agent : String
  input : String
  expects : String
  max_retries : Option Nat
  on_fail : Option OnFail
  type : Option String
  loop : Option String
deriving Repr, DecidableEq, Inhabited

/-- The `notifications` block of a workflow specification. -/
structure Notifications where
  url : Option String
deriving Repr, DecidableEq, Inhabited

/-- A loaded workflow specification (the fields of `workflow` read by
`runWorkflow`; `loadWorkflowSpec` itself is out of scope, the loaded
value is an input here). -/
structure WorkflowSpec where
  id : String
  context : List (String × String)
  notifications : Option Notifications
  steps : List WorkflowStep
deriving Repr, DecidableEq, Inhabited

/-- Embeds `RunWorkflowParams` (run.ts).  Optional strings keep their
JavaScript truthiness semantics via `truthy`; `approve?: boolean` with
`undefined` falsy is a plain `Bool`. -/
structure RunWorkflowParams where
  workflowId : String
  taskTitle : String
  notifyUrl : Option String
  storiesFrom : Option String
  repo : Option String
  approve : Bool
  linearTeam : Option String
  linearProject : Option String
deriving Repr, DecidableEq, Inhabited

/-- The value `runWorkflow` returns to its caller. -/
structure RunResult where
  id : String
  runNumber : Nat
  workflowId : String
  task : String
  status : String
deriving Repr, DecidableEq, Inhabited

/-- Environment of `runWorkflow`: the Linear CLI oracle, the UUID supply,
the next run number, the two timestamps taken during the call, the
SQLite insert-failure oracle (indexed by the 0-based position of the
insert inside the transaction) and the outcome of
`ensureWorkflowCrons`. -/
structure Env where
  cli : LinearCli
  uuid : Nat → String
  runNumber : Nat
  now : String
  now2 : String
  insertFails : Nat → Bool
  cronOk : Bool
  cronErr : String

/-! ### Run creation (run.ts `runWorkflow`) -/

/-- Initial context: the object literal `{ task: params.taskTitle,
...workflow.context }` — note the spread of the specification defaults
comes second and therefore overwrites the `task` key if the
specification binds it — then `repo` when the `--repo` flag is truthy. -/
def initialCtx (wf : WorkflowSpec) (p : RunWorkflowParams) : Ctx :=
  let base := ctxSetAll (ctxSet [] "task" p.taskTitle) wf.context
  if truthy p.repo then ctxSet base "repo" (p.repo.getD "") else base

/-- Embeds the `--stories-from` parsing and dispatch in `runWorkflow`:
`split(":", 2)`, a falsy second field is a format error, sources other
than `linear` / `linear-issue` are unknown. -/
def importStories (cli : LinearCli) (sf : String) : Except String (List LinearStory) :=
  match splitFields ':' sf.toList with
  | source :: sid :: _ =>
    if sid.isEmpty then
      .error ("Invalid --stories-from format: " ++ sf)
    else if String.mk source == "linear" then
      exportProjectStories cli (String.mk sid)
    else if String.mk source == "linear-issue" then
      exportIssueStory cli (String.mk sid)
    else
      .error ("Unknown stories source: " ++ String.mk source)
  | _ => .error ("Invalid --stories-from format: " ++ sf)

/-- Simple serialization of the Linear story mapping; abstracts
`JSON.stringify` (nothing in the embedded code reads the string back). -/
def encodeMapping (m : List (String × String × String)) : String :=
  m.foldl (fun acc t => acc ++ t.1 ++ "," ++ t.2.1 ++ "," ++ t.2.2 ++ ";") ""

/-- The Linear pre-processing block of `runWorkflow`: when
`--stories-from` is truthy, import the backlog, ensure the `wbs/nick`
label (best-effort), and record the mapping and source in the context.
Returns (imported backlog, skipPlanStep, updated context). -/
def importPhase (env : Env) (p : RunWorkflowParams) (ctx0 : Ctx) :
    Except String (Option (List LinearStory) × Bool × Ctx) :=
  if truthy p.storiesFrom then
    match importStories env.cli (p.storiesFrom.getD "") with
    | .error e => .error e
    | .ok stories =>
      match ensureLabel env.cli "wbs/nick" with
      | .error e => .error e
      | .ok _ =>
        let mapping := stories.map (fun s => (s.id, s.linearIssueId, s.linearIdentifier))
        let ctx1 := ctxSet (ctxSet ctx0 "linear_mapping" (encodeMapping mapping))
          "linear_source" (p.storiesFrom.getD "")
        .ok (some stories, true, ctx1)
  else
    .ok (none, false, ctx0)

/-- The blank-slate block: when no stories source is given but a Linear
team is, record the blank-slate keys in the context. -/
def blankSlate (p : RunWorkflowParams) (c : Ctx) : Ctx :=
  if !truthy p.storiesFrom && truthy p.linearTeam then
    let c1 := ctxSet (ctxSet c "linear_blank_slate" "true")
      "linear_team_id" (p.linearTeam.getD "")
    if truthy p.linearProject then
      ctxSet c1 "linear_project_id" (p.linearProject.getD "")
    else c1
  else c

/-- The step filter of the materialization loop: the `plan` step is
elided when stories were pre-imported. -/
def keptSteps (wf : WorkflowSpec) (skipPlanStep : Bool) : List WorkflowStep :=
  wf.steps.filter (fun st => !(skipPlanStep && st.id == "plan"))

/-- Initial status of the step at materialized position `idx`:
`stepIndex === 0 ? (runStatus === "paused" ? "waiting" : "pending")
: "waiting"`. -/
def stepStatusFor (runStatus : String) (idx : Nat) : String :=
  if idx = 0 then (if runStatus == "paused" then "waiting" else "pending")
  else "waiting"

/-- One materialized step row (the `insertStep.run(...)` arguments). -/
def mkStepRow (env : Env) (wf : WorkflowSpec) (runId runStatus : String)
    (idx : Nat) (st : WorkflowStep) : StepRow :=
  { id := env.uuid (1 + idx)
    runId := runId
    stepId := st.id
    agentId := wf.id ++ "_" ++ st.agent
    stepIndex := idx
    inputTemplate := st.input
    expects := st.expects
    status := stepStatusFor runStatus idx
    maxRetries := (st.max_retries.or (st.on_fail.bind (fun f => f.max_retries))).getD 2
    stepType := st.type.getD "single"
    loopConfig := st.loop
    createdAt := env.now
    updatedAt := env.now }

/-- The step materialization loop: skip-filter, then number the survivors
contiguously from 0. -/
def materializeSteps (env : Env) (wf : WorkflowSpec) (skipPlanStep : Bool)
    (runId runStatus : String) : List StepRow :=
  (keptSteps wf skipPlanStep).enum.map (fun pr => mkStepRow env wf runId runStatus pr.1 pr.2)

/-- One pre-imported story row (the `insertStory.run(...)` arguments;
status, retry count and max retries are the literals `'pending', 0, 2`
of the `INSERT` statement). -/
def mkStoryRow (env : Env) (uuidBase : Nat) (runId : String) (i : Nat)
    (s : LinearStory) : StoryRow :=
  { id := env.uuid (uuidBase + i)
    runId := runId
    storyIndex := i
    storyId := s.id
    title := s.title
    description := s.description
    acceptanceCriteria := s.acceptanceCriteria
    status := "pending"
    retryCount := 0
    maxRetries := 2
    createdAt := env.now
    updatedAt := env.now }

/-- The story insertion loop, in backlog order. -/
def mkStoryRows (env : Env) (uuidBase : Nat) (runId : String)
    (ss : List LinearStory) : List StoryRow :=
  ss.enum.map (fun pr => mkStoryRow env uuidBase runId pr.1 pr.2)

/-- Everything `runWorkflow` computes before touching the store. -/
structure Prep where
  runRow : RunRow
  stepRows : List StepRow
  storyRows : List StoryRow
  result : RunResult
deriving Repr, DecidableEq, Inhabited

/-- Assembles the run row, step rows, story rows and return value from
the outcome of the Linear pre-processing.  The run status is
`(params.approve && (linearStories || skipPlanStep)) ? "paused" :
"running"` (an empty imported array is truthy in JavaScript, hence
`isSome`); the returned status is the literal `"running"`. -/
def mkPrep (env : Env) (wf : WorkflowSpec) (p : RunWorkflowParams)
    (linearStories : Option (List LinearStory)) (skipPlanStep : Bool)
    (ctx1 : Ctx) : Prep :=
  let runId := env.uuid 0
  let ctx2 := blankSlate p ctx1
  let runStatus := if p.approve && (linearStories.isSome || skipPlanStep)
    then "paused" else "running"
  let stepRows := materializeSteps env wf skipPlanStep runId runStatus
  let storyRows := match linearStories with
    | some ss => mkStoryRows env (1 + stepRows.length) runId ss
    | none => []
  { runRow :=
      { id := runId
        runNumber := env.runNumber
        workflowId := wf.id
        task := p.taskTitle
        status := runStatus
        context := ctx2
        notifyUrl := p.notifyUrl.or (wf.notifications.bind (fun n => n.url))
        createdAt := env.now
        updatedAt := env.now }
    stepRows := stepRows
    storyRows := storyRows
    result :=
      { id := runId
        runNumber := env.runNumber
        workflowId := wf.id
        task := p.taskTitle
        status := "running" } }

/-- The pre-transaction part of `runWorkflow`: build the initial context,
run the Linear pre-processing, assemble the rows. -/
def prepare (env : Env) (wf : WorkflowSpec) (p : RunWorkflowParams) :
    Except String Prep :=
  match importPhase env p (initialCtx wf p) with
  | .error e => .error e
  | .ok (ls, skip, ctx1) => .ok (mkPrep env wf p ls skip ctx1)

/-- Run a list of inserts; the `k`-th insert of the transaction raises
when the failure oracle says so. -/
def insertEach {α : Type} (fails : Nat → Bool) (upd : DbState → α → DbState) :
    List α → DbState × Nat → Except String (DbState × Nat)
  | [], st => .ok st
  | r :: rs, (db, k) =>
    if fails k then .error "SQLITE_ERROR: insert failed"
    else insertEach fails upd rs (upd db r, k + 1)

/-- Insert into `runs`. -/
def appendRun (db : DbState) (r : RunRow) : DbState :=
  { db with runs := db.runs ++ [r] }

/-- Insert into `steps`. -/
def appendStep (db : DbState) (r : StepRow) : DbState :=
  { db with steps := db.steps ++ [r] }

/-- Insert into `stories`. -/
def appendStory (db : DbState) (r : StoryRow) : DbState :=
  { db with stories := db.stories ++ [r] }

/-- The body of the `BEGIN` … `COMMIT` block: the run insert, then the
step inserts in position order, then the story inserts in backlog
order. -/
def txBody (env : Env) (prep : Prep) (db : DbState) : Except String DbState :=
  match insertEach env.insertFails appendRun [prep.runRow] (db, 0) with
  | .error e => .error e
  | .ok st1 =>
    match insertEach env.insertFails appendStep prep.stepRows st1 with
    | .error e => .error e
    | .ok st2 =>
      match insertEach env.insertFails appendStory prep.storyRows st2 with
      | .error e => .error e
      | .ok (db3, _) => .ok db3

/-- SQLite transaction semantics for the `BEGIN`/`COMMIT`/`ROLLBACK`
wrapper: on success the mutated store is committed, on any error the
store reverts to the snapshot and the error is re-thrown. -/
def withTransaction (db : DbState) (body : DbState → Except String DbState) :
    DbState × Option String :=
  match body db with
  | .ok db2 => (db2, none)
  | .error e => (db, some e)

/-- The compensating update `UPDATE runs SET status = 'failed',
updated_at = ? WHERE id = ?`. -/
def markRunFailed (db : DbState) (runId ts : String) : DbState :=
  { db with runs := db.runs.map (fun r =>
      if r.id == runId then { r with status := "failed", updatedAt := ts } else r) }

/-- The error `runWorkflow` raises when `ensureWorkflowCrons` fails. -/
def cronFailMsg (env : Env) : String :=
  "Cannot start workflow run: cron setup failed. " ++ env.cronErr

/-- The part of `runWorkflow` from `db.exec("BEGIN")` on: run the insert
transaction, then the post-commit `ensureWorkflowCrons` request — whose
failure marks the freshly created run `failed` and re-raises. -/
def afterPrepare (env : Env) (prep : Prep) (db : DbState) :
    DbState × Except String RunResult :=
  match withTransaction db (txBody env prep) with
  | (dbT, some e) => (dbT, .error e)
  | (dbT, none) =>
    if env.cronOk then (dbT, .ok prep.result)
    else (markRunFailed dbT prep.runRow.id env.now2, .error (cronFailMsg env))

/-- Embeds `runWorkflow` (run.ts): validation and Linear import, one
insert transaction, then the post-commit cron bootstrap.  Returns the
final store together with the result or the raised error. -/
def runWorkflow (env : Env) (wf : WorkflowSpec) (p : RunWorkflowParams)
    (db : DbState) : DbState × Except String RunResult :=
  match prepare env wf p with
  | .error e => (db, .error e)
  | .ok prep => afterPrepare env prep db

/-! ### Sample inputs used by the witnesses -/

/-- Total extractor for `Except` values known to be `.ok`. -/
def exOk {α : Type} [Inhabited α] (e : Except String α) : α :=
  match e with
  | .ok v => v
  | .error _ => default

/-- Three issues: one without priority (0 ↦ 5, sorts last), two with
priority 2 distinguished by `sortOrder`. -/
def sampleIssues : List LinearIssue :=
  [{ id := "iss1", identifier := "ENG-1", title := "First", description := "",
     priority := 0, sortOrder := 1 },
   { id := "iss2", identifier := "ENG-2", title := "Second",
     description := "- [ ] criterion A", priority := 2, sortOrder := 5 },
   { id := "iss3", identifier := "ENG-3", title := "Third", description := "",
     priority := 2, sortOrder := 3 }]

/-- A healthy CLI oracle serving `sampleIssues` for project `proj1`. -/
def sampleCli : LinearCli :=
  { stateList := fun _ => .ok []
    issueMove := fun _ _ => .ok ()
    commentCreate := fun _ _ => .ok ()
    labelList := .ok [{ id := "lab1", name := "wbs/nick" }]
    labelCreate := fun n => .ok ("lab-" ++ n)
    projectIssues := fun pid => if pid == "proj1" then .ok sampleIssues else .error "not found"
    issueGet := fun _ => .error "unavailable" }

/-- A CLI oracle on which every invocation fails. -/
def failingCli : LinearCli :=
  { stateList := fun _ => .error "linear CLI failed: state list"
    issueMove := fun _ _ => .error "linear CLI failed: issue move"
    commentCreate := fun _ _ => .error "linear CLI failed: comment create"
    labelList := .error "linear CLI failed: label list"
    labelCreate := fun _ => .error "linear CLI failed: label create"
    projectIssues := fun _ => .error "linear CLI failed: project issues"
    issueGet := fun _ => .error "linear CLI failed: issue get" }

/-- A healthy environment: inserts succeed, cron bootstrap succeeds. -/
def sampleEnv : Env :=
  { cli := sampleCli
    uuid := fun n => "uuid-" ++ Nat.repr n
    runNumber := 7
    now := "2026-01-01T00:00:00Z"
    now2 := "2026-01-01T00:00:05Z"
    insertFails := fun _ => false
    cronOk := true
    cronErr := "" }

/-- Same environment with a failing cron bootstrap. -/
def sampleEnvCronFail : Env :=
  { sampleEnv with cronOk := false, cronErr := "spawn openclaw ENOENT" }

/-- A two-step workflow whose first step is the elidable `plan` step. -/
def sampleWf : WorkflowSpec :=
  { id := "feature-dev"
    context := [("base_branch", "main")]
    notifications := none
    steps :=
      [{ id := "plan", agent := "planner", input := "Plan the task",
         expects := "STORIES", max_retries := none, on_fail := none,
         type := none, loop := none },
       { id := "implement", agent := "developer", input := "Implement the stories",
         expects := "STATUS", max_retries := some 3, on_fail := none,
         type := some "loop", loop := some "stories" }] }

/-- Parameters importing a Linear backlog with the approval gate set. -/
def sampleParams : RunWorkflowParams :=
  { workflowId := "feature-dev"
    taskTitle := "Build the widget"
    notifyUrl := none
    storiesFrom := some "linear:proj1"
    repo := some "/work/repo"
    approve := true
    linearTeam := none
    linearProject := none }

/-- Parameters with no backlog and no approval gate. -/
def plainParams : RunWorkflowParams :=
  { workflowId := "feature-dev"
    taskTitle := "Build the widget"
    notifyUrl := none
    storiesFrom := none
    repo := none
    approve := false
    linearTeam := none
    linearProject := none }

/-- The empty store. -/
def dbEmpty : DbState :=
  { runs := [], steps := [], stories := [] }

/-- A workflow whose default context binds the fixed key `task`. -/
def wfTaskDefault : WorkflowSpec :=
  { id := "feature-dev"
    context := [("task", "spec-default-task")]
    notifications := none
    steps :=
      [{ id := "implement", agent := "developer", input := "Implement",
         expects := "STATUS", max_retries := none, on_fail := none,
         type := none, loop := none }] }

/-- The prepared rows of the cron-failure witness run. -/
def samplePrep : Prep :=
  exOk (prepare sampleEnvCronFail sampleWf sampleParams)

/-- The committed store of the cron-failure witness run. -/
def sampleTxDb : DbState :=
  exOk (txBody sampleEnvCronFail samplePrep dbEmpty)

/-- A CLI oracle whose project has no issues. -/
def emptyProjectCli : LinearCli :=
  { sampleCli with projectIssues := fun _ => .ok [] }

/-! ## Helper lemmas -/

theorem truthy_eq_getD {o : Option String} (h : truthy o = true) :
    o = some (o.getD "") := by
  cases o with
  | none => simp [truthy] at h
  | some s => rfl

theorem ctxGet_ctxSet_self (c : Ctx) (k v : String) :
    ctxGet (ctxSet c k v) k = some v := by
  induction c with
  | nil =>
    simp only [ctxSet, ctxGet]
    rw [@List.find?_cons_of_pos _ (fun q => q.1 == k) (k, v) [] (by simp)]
    rfl
  | cons p c ih =>
    by_cases h : (p.1 == k) = true
    · simp only [ctxSet, if_pos h, ctxGet]
      rw [@List.find?_cons_of_pos _ (fun q => q.1 == k) (k, v) c (by simp)]
      rfl
    · simp only [ctxSet, if_neg h, ctxGet]
      rw [@List.find?_cons_of_neg _ (fun q => q.1 == k) p (ctxSet c k v) h]
      exact ih

theorem ctxGet_ctxSet_ne (c : Ctx) {k k' : String} (h : k' ≠ k) (v : String) :
    ctxGet (ctxSet c k' v) k = ctxGet c k := by
  induction c with
  | nil =>
    simp only [ctxSet, ctxGet]
    rw [@List.find?_cons_of_neg _ (fun q => q.1 == k) (k', v) [] (by simp [h])]
  | cons p c ih =>
    by_cases hp : (p.1 == k') = true
    · have hp1 : p.1 = k' := by simpa using hp
      have hpk : ¬ (p.1 == k) = true := by simp [hp1, h]
      simp only [ctxSet, if_pos hp, ctxGet]
      rw [@List.find?_cons_of_neg _ (fun q => q.1 == k) (k', v) c (by simp [h]),
        @List.find?_cons_of_neg _ (fun q => q.1 == k) p c hpk]
    · simp only [ctxSet, if_neg hp, ctxGet]
      by_cases hpk : (p.1 == k) = true
      · rw [@List.find?_cons_of_pos _ (fun q => q.1 == k) p (ctxSet c k' v) hpk,
          @List.find?_cons_of_pos _ (fun q => q.1 == k) p c hpk]
      · rw [@List.find?_cons_of_neg _ (fun q => q.1 == k) p (ctxSet c k' v) hpk,
          @List.find?_cons_of_neg _ (fun q => q.1 == k) p c hpk]
        exact ih

theorem ctxGet_ctxSetAll_notMem (kvs : List (String × String)) (c : Ctx)
    {k : String} (h : ∀ kv ∈ kvs, kv.1 ≠ k) :
    ctxGet (ctxSetAll c kvs) k = ctxGet c k := by
  induction kvs generalizing c with
  | nil => rfl
  | cons kv kvs ih =>
    have hstep : ctxSetAll c (kv :: kvs) = ctxSetAll (ctxSet c kv.1 kv.2) kvs := rfl
    rw [hstep, ih _ (fun x hx => h x (List.mem_cons_of_mem _ hx)),
      ctxGet_ctxSet_ne _ (h kv (List.mem_cons_self _ _)) _]

theorem ctxGet_blankSlate (p : RunWorkflowParams) (c : Ctx) {k : String}
    (h1 : k ≠ "linear_blank_slate") (h2 : k ≠ "linear_team_id")
    (h3 : k ≠ "linear_project_id") :
    ctxGet (blankSlate p c) k = ctxGet c k := by
  unfold blankSlate
  split
  · split
    · rw [ctxGet_ctxSet_ne _ (Ne.symm h3) _, ctxGet_ctxSet_ne _ (Ne.symm h2) _,
        ctxGet_ctxSet_ne _ (Ne.symm h1) _]
    · rw [ctxGet_ctxSet_ne _ (Ne.symm h2) _, ctxGet_ctxSet_ne _ (Ne.symm h1) _]
  · rfl

theorem initialCtx_get_task {wf : WorkflowSpec} {p : RunWorkflowParams}
    (htask : ∀ kv ∈ wf.context, kv.1 ≠ "task") :
    ctxGet (initialCtx wf p) "task" = some p.taskTitle := by
  unfold initialCtx
  split
  · rw [ctxGet_ctxSet_ne _ (by decide) _,
      ctxGet_ctxSetAll_notMem wf.context _ htask, ctxGet_ctxSet_self]
  · rw [ctxGet_ctxSetAll_notMem wf.context _ htask, ctxGet_ctxSet_self]

theorem initialCtx_get_repo {wf : WorkflowSpec} {p : RunWorkflowParams}
    (hr : truthy p.repo = true) :
    ctxGet (initialCtx wf p) "repo" = p.repo := by
  unfold initialCtx
  rw [if_pos hr, ctxGet_ctxSet_self]
  exact (truthy_eq_getD hr).symm

theorem insertEach_ok {α : Type} (fails : Nat → Bool) (upd : DbState → α → DbState) :
    ∀ (rs : List α) (db : DbState) (k : Nat) (db' : DbState) (k' : Nat),
      insertEach fails upd rs (db, k) = .ok (db', k') → db' = rs.foldl upd db := by
  intro rs
  induction rs with
  | nil =>
    intro db k db' k' h
    simp only [insertEach, Except.ok.injEq, Prod.mk.injEq] at h
    rw [List.foldl_nil, ← h.1]
  | cons r rs ih =>
    intro db k db' k' h
    simp only [insertEach] at h
    split at h
    · exact absurd h (by simp)
    · rw [List.foldl_cons]
      exact ih _ _ _ _ h

theorem foldl_appendRun (rs : List RunRow) (db : DbState) :
    rs.foldl appendRun db =
      { db with runs := db.runs ++ rs } := by
  induction rs generalizing db with
  | nil => rw [List.foldl_nil, List.append_nil]
  | cons r rs ih =>
    rw [List.foldl_cons, ih]
    simp only [appendRun, List.append_assoc, List.singleton_append]

theorem foldl_appendStep (rs : List StepRow) (db : DbState) :
    rs.foldl appendStep db =
      { db with steps := db.steps ++ rs } := by
  induction rs generalizing db with
  | nil => rw [List.foldl_nil, List.append_nil]
  | cons r rs ih =>
    rw [List.foldl_cons, ih]
    simp only [appendStep, List.append_assoc, List.singleton_append]

theorem foldl_appendStory (rs : List StoryRow) (db : DbState) :
    rs.foldl appendStory db =
      { db with stories := db.stories ++ rs } := by
  induction rs generalizing db with
  | nil => rw [List.foldl_nil, List.append_nil]
  | cons r rs ih =>
    rw [List.foldl_cons, ih]
    simp only [appendStory, List.append_assoc, List.singleton_append]

theorem txBody_ok {env : Env} {prep : Prep} {db db2 : DbState}
    (h : txBody env prep db = .ok db2) :
    db2 = { runs := db.runs ++ [prep.runRow],
            steps := db.steps ++ prep.stepRows,
            stories := db.stories ++ prep.storyRows } := by
  unfold txBody at h
  split at h
  · exact absurd h (by simp)
  next st1 h1 =>
    obtain ⟨db1, k1⟩ := st1
    split at h
    · exact absurd h (by simp)
    next st2 h2 =>
      obtain ⟨dbB, k2⟩ := st2
      split at h
      · exact absurd h (by simp)
      next db3 k3 h3 =>
        have e1 := insertEach_ok _ _ _ _ _ _ _ h1
        have e2 := insertEach_ok _ _ _ _ _ _ _ h2
        have e3 := insertEach_ok _ _ _ _ _ _ _ h3
        rw [foldl_appendStep] at e2
        rw [foldl_appendStory] at e3
        injection h with h
        subst h
        rw [e3, e2, e1]
        simp only [List.foldl_cons, List.foldl_nil, appendRun]

theorem runWorkflow_eq_err {env : Env} {wf : WorkflowSpec}
    {p : RunWorkflowParams} {db : DbState} {e : String}
    (hprep : prepare env wf p = .error e) :
    runWorkflow env wf p db = (db, .error e) := by
  unfold runWorkflow
  rw [hprep]

theorem runWorkflow_ok_prep {env : Env} {wf : WorkflowSpec}
    {p : RunWorkflowParams} {db : DbState} {prep : Prep}
    (hprep : prepare env wf p = .ok prep) :
    runWorkflow env wf p db = afterPrepare env prep db := by
  unfold runWorkflow
  rw [hprep]

theorem afterPrepare_tx_err {env : Env} {prep : Prep} {db : DbState} {e : String}
    (htx : txBody env prep db = .error e) :
    afterPrepare env prep db = (db, .error e) := by
  unfold afterPrepare withTransaction
  rw [htx]

theorem afterPrepare_commit_ok {env : Env} {prep : Prep} {db db2 : DbState}
    (htx : txBody env prep db = .ok db2) (hc : env.cronOk = true) :
    afterPrepare env prep db = (db2, .ok prep.result) := by
  unfold afterPrepare withTransaction
  rw [htx, hc]
  rfl

theorem afterPrepare_cron_fail {env : Env} {prep : Prep} {db db2 : DbState}
    (htx : txBody env prep db = .ok db2) (hc : env.cronOk = false) :
    afterPrepare env prep db =
      (markRunFailed db2 prep.runRow.id env.now2, .error (cronFailMsg env)) := by
  unfold afterPrepare withTransaction
  rw [htx, hc]
  rfl

theorem runWorkflow_ok_split {env : Env} {wf : WorkflowSpec}
    {p : RunWorkflowParams} {db db' : DbState} {r : RunResult}
    (h : runWorkflow env wf p db = (db', .ok r)) :
    ∃ prep, prepare env wf p = .ok prep ∧ env.cronOk = true ∧ r = prep.result ∧
      db' = { runs := db.runs ++ [prep.runRow],
              steps := db.steps ++ prep.stepRows,
              stories := db.stories ++ prep.storyRows } := by
  cases hprep : prepare env wf p with
  | error e =>
    rw [runWorkflow_eq_err hprep] at h
    exact absurd (congrArg Prod.snd h) (by simp)
  | ok prep =>
    rw [runWorkflow_ok_prep hprep] at h
    cases htx : txBody env prep db with
    | error e =>
      rw [afterPrepare_tx_err htx] at h
      exact absurd (congrArg Prod.snd h) (by simp)
    | ok db2 =>
      by_cases hc : env.cronOk
      · rw [afterPrepare_commit_ok htx hc] at h
        rw [Prod.mk.injEq] at h
        obtain ⟨h1, h2⟩ := h
        refine ⟨prep, rfl, hc, ?_, ?_⟩
        · injection h2 with h2
          exact h2.symm
        · rw [← h1]
          exact txBody_ok htx
      · rw [afterPrepare_cron_fail htx (by simpa using hc)] at h
        exact absurd (congrArg Prod.snd h) (by simp)

theorem importPhase_ok_cases {env : Env} {p : RunWorkflowParams} {ctx0 : Ctx}
    {ls : Option (List LinearStory)} {skip : Bool} {ctx1 : Ctx}
    (h : importPhase env p ctx0 = .ok (ls, skip, ctx1)) :
    (truthy p.storiesFrom = false ∧ ls = none ∧ skip = false ∧ ctx1 = ctx0) ∨
    (truthy p.storiesFrom = true ∧ ∃ stories,
      importStories env.cli (p.storiesFrom.getD "") = .ok stories ∧
      ls = some stories ∧ skip = true ∧
      ctx1 = ctxSet (ctxSet ctx0 "linear_mapping"
          (encodeMapping (stories.map (fun s => (s.id, s.linearIssueId, s.linearIdentifier)))))
        "linear_source" (p.storiesFrom.getD "")) := by
  unfold importPhase at h
  split at h
  next ht =>
    right
    refine ⟨ht, ?_⟩
    split at h
    · exact absurd h (by simp)
    next stories hst =>
      split at h
      · exact absurd h (by simp)
      next pr hel =>
        injection h with h
        simp only [Prod.mk.injEq] at h
        exact ⟨stories, hst, h.1.symm, h.2.1.symm, h.2.2.symm⟩
  next hf =>
    left
    injection h with h
    simp only [Prod.mk.injEq] at h
    exact ⟨by simpa using hf, h.1.symm, h.2.1.symm, h.2.2.symm⟩

theorem prepare_ok_cases {env : Env} {wf : WorkflowSpec} {p : RunWorkflowParams}
    {prep : Prep} (h : prepare env wf p = .ok prep) :
    (truthy p.storiesFrom = false ∧
      prep = mkPrep env wf p none false (initialCtx wf p)) ∨
    (truthy p.storiesFrom = true ∧ ∃ stories,
      importStories env.cli (p.storiesFrom.getD "") = .ok stories ∧
      prep = mkPrep env wf p (some stories) true
        (ctxSet (ctxSet (initialCtx wf p) "linear_mapping"
            (encodeMapping (stories.map (fun s => (s.id, s.linearIssueId, s.linearIdentifier)))))
          "linear_source" (p.storiesFrom.getD ""))) := by
  unfold prepare at h
  split at h
  · exact absurd h (by simp)
  next ls skip ctx1 himp =>
    injection h with h
    rcases importPhase_ok_cases himp with ⟨hf, hls, hskip, hctx⟩ |
      ⟨ht, stories, hst, hls, hskip, hctx⟩
    · left
      exact ⟨hf, by rw [← h, hls, hskip, hctx]⟩
    · right
      exact ⟨ht, stories, hst, by rw [← h, hls, hskip, hctx]⟩

theorem prepare_ok_shape {env : Env} {wf : WorkflowSpec} {p : RunWorkflowParams}
    {prep : Prep} (h : prepare env wf p = .ok prep) :
    ∃ ls skip ctx1, prep = mkPrep env wf p ls skip ctx1 := by
  rcases prepare_ok_cases h with ⟨-, hpe⟩ | ⟨-, stories, -, hpe⟩
  · exact ⟨none, false, _, hpe⟩
  · exact ⟨some stories, true, _, hpe⟩

theorem materializeSteps_stepIndex (env : Env) (wf : WorkflowSpec)
    (skip : Bool) (runId runStatus : String) :
    (materializeSteps env wf skip runId runStatus).map (fun s => s.stepIndex) =
      List.range (materializeSteps env wf skip runId runStatus).length := by
  unfold materializeSteps
  rw [List.map_map, List.length_map, List.enum_length]
  have h1 : ((fun s : StepRow => s.stepIndex) ∘
      (fun pr : Nat × WorkflowStep => mkStepRow env wf runId runStatus pr.1 pr.2)) =
      Prod.fst := rfl
  rw [h1, List.enum_map_fst]

theorem materializeSteps_get_status (env : Env) (wf : WorkflowSpec)
    (skip : Bool) (runId runStatus : String) (i : Nat)
    (hi : i < (materializeSteps env wf skip runId runStatus).length) :
    ((materializeSteps env wf skip runId runStatus).get ⟨i, hi⟩).status =
      stepStatusFor runStatus i := by
  simp only [materializeSteps, List.get_eq_getElem, List.getElem_map,
    List.getElem_enum]
  rfl

theorem mkStoryRows_length (env : Env) (base : Nat) (runId : String)
    (ss : List LinearStory) :
    (mkStoryRows env base runId ss).length = ss.length := by
  unfold mkStoryRows
  rw [List.length_map, List.enum_length]

theorem mkStoryRows_get (env : Env) (base : Nat) (runId : String)
    (ss : List LinearStory) (i : Nat)
    (hi : i < (mkStoryRows env base runId ss).length) (hs : i < ss.length) :
    (mkStoryRows env base runId ss).get ⟨i, hi⟩ =
      mkStoryRow env base runId i (ss.get ⟨i, hs⟩) := by
  simp only [mkStoryRows, List.get_eq_getElem, List.getElem_map,
    List.getElem_enum]

theorem stepStatusFor_two_valued (s : String)
    (hs : s = "paused" ∨ s = "running") (i : Nat) :
    stepStatusFor s i =
      (if i = 0 then (if s = "running" then "pending" else "waiting")
       else "waiting") := by
  rcases hs with rfl | rfl <;> by_cases hi0 : i = 0 <;>
    simp [stepStatusFor, hi0]

theorem ite_status_two_valued (b : Bool) :
    (if b then ("paused" : String) else "running") = "paused" ∨
    (if b then ("paused" : String) else "running") = "running" := by
  cases b <;> simp

theorem mkPrep_runRow_status (env : Env) (wf : WorkflowSpec)
    (p : RunWorkflowParams) (ls : Option (List LinearStory)) (skip : Bool)
    (ctx1 : Ctx) :
    (mkPrep env wf p ls skip ctx1).runRow.status =
      (if p.approve && (ls.isSome || skip) then "paused" else "running") := rfl

theorem mkPrep_result_status (env : Env) (wf : WorkflowSpec)
    (p : RunWorkflowParams) (ls : Option (List LinearStory)) (skip : Bool)
    (ctx1 : Ctx) :
    (mkPrep env wf p ls skip ctx1).result.status = "running" := rfl

theorem mkPrep_runRow_context (env : Env) (wf : WorkflowSpec)
    (p : RunWorkflowParams) (ls : Option (List LinearStory)) (skip : Bool)
    (ctx1 : Ctx) :
    (mkPrep env wf p ls skip ctx1).runRow.context = blankSlate p ctx1 := rfl

theorem mkPrep_story_get (env : Env) (wf : WorkflowSpec)
    (p : RunWorkflowParams) (ss : List LinearStory) (skip : Bool) (ctx1 : Ctx)
    (i : Nat) (hi : i < (mkPrep env wf p (some ss) skip ctx1).storyRows.length)
    (hs : i < ss.length) :
    (mkPrep env wf p (some ss) skip ctx1).storyRows.get ⟨i, hi⟩ =
      mkStoryRow env (1 + (mkPrep env wf p (some ss) skip ctx1).stepRows.length)
        (env.uuid 0) i (ss.get ⟨i, hs⟩) :=
  mkStoryRows_get env _ (env.uuid 0) ss i hi hs

/-! ## Claim theorems -/

/-- C1: on every successful creation the persisted Run (the run row the
call appends) has status `paused` iff both the approval flag is set and a
story backlog source was supplied at creation, and status `running` in
every other case. -/
theorem run_status_paused_iff {env : Env} {wf : WorkflowSpec}
    {p : RunWorkflowParams} {db db' : DbState} {r : RunResult}
    (h : runWorkflow env wf p db = (db', .ok r)) :
    ∃ rr, db'.runs.getLast? = some rr ∧
      rr.status =
        (if p.approve && truthy p.storiesFrom then "paused" else "running") := by
  obtain ⟨prep, hprep, -, -, hdb⟩ := runWorkflow_ok_split h
  refine ⟨prep.runRow, by rw [hdb]; exact List.getLast?_concat _, ?_⟩
  rcases prepare_ok_cases hprep with ⟨hf, hpe⟩ | ⟨ht, stories, -, hpe⟩
  · have hs : prep.runRow.status =
        (if p.approve && ((none : Option (List LinearStory)).isSome || false)
         then "paused" else "running") := by
      rw [hpe]
      exact mkPrep_runRow_status env wf p none false _
    rw [hs, hf]
    simp
  · have hs : prep.runRow.status =
        (if p.approve && ((some stories).isSome || true)
         then "paused" else "running") := by
      rw [hpe]
      exact mkPrep_runRow_status env wf p (some stories) true _
    rw [hs, ht]
    simp

/-- C1 witness: a creation with `--approve` and a Linear backlog; the
persisted run is `paused`, matching the flag conjunction. -/
theorem run_status_paused_iff_witness :
    ∃ rr, ((runWorkflow sampleEnv sampleWf sampleParams dbEmpty).1).runs.getLast? = some rr ∧
      rr.status =
        (if sampleParams.approve && truthy sampleParams.storiesFrom
         then "paused" else "running") :=
  @run_status_paused_iff sampleEnv sampleWf sampleParams dbEmpty
    (runWorkflow sampleEnv sampleWf sampleParams dbEmpty).1
    (exOk (runWorkflow sampleEnv sampleWf sampleParams dbEmpty).2) rfl

/-- C2: on every successful creation the first materialized step is
persisted `pending` when the run is `running` and `waiting` when the run
is `paused`, and every later step is persisted `waiting`. -/
theorem first_step_pending_rest_waiting {env : Env} {wf : WorkflowSpec}
    {p : RunWorkflowParams} {db db' : DbState} {r : RunResult}
    (h : runWorkflow env wf p db = (db', .ok r)) :
    ∃ rr srows, db'.runs.getLast? = some rr ∧ db'.steps = db.steps ++ srows ∧
      ∀ (i : Nat) (hi : i < srows.length),
        (srows.get ⟨i, hi⟩).status =
          (if i = 0 then (if rr.status = "running" then "pending" else "waiting")
           else "waiting") := by
  obtain ⟨prep, hprep, -, -, hdb⟩ := runWorkflow_ok_split h
  obtain ⟨ls, skip, ctx1, hpe⟩ := prepare_ok_shape hprep
  subst hpe
  refine ⟨(mkPrep env wf p ls skip ctx1).runRow,
    (mkPrep env wf p ls skip ctx1).stepRows,
    by rw [hdb]; exact List.getLast?_concat _, by rw [hdb], ?_⟩
  intro i hi
  have hst : ((mkPrep env wf p ls skip ctx1).stepRows.get ⟨i, hi⟩).status =
      stepStatusFor (if p.approve && (ls.isSome || skip) then "paused" else "running") i :=
    materializeSteps_get_status env wf skip (env.uuid 0)
      (if p.approve && (ls.isSome || skip) then "paused" else "running") i hi
  have hrs : (mkPrep env wf p ls skip ctx1).runRow.status =
      (if p.approve && (ls.isSome || skip) then "paused" else "running") := rfl
  rw [hst, hrs]
  exact stepStatusFor_two_valued _ (ite_status_two_valued _) i

/-- C2 witness: the paused sample run (approval flag plus backlog); its
single materialized step is `waiting`. -/
theorem first_step_pending_rest_waiting_witness :
    ∃ rr srows,
      ((runWorkflow sampleEnv sampleWf sampleParams dbEmpty).1).runs.getLast? = some rr ∧
      ((runWorkflow sampleEnv sampleWf sampleParams dbEmpty).1).steps = dbEmpty.steps ++ srows ∧
      ∀ (i : Nat) (hi : i < srows.length),
        (srows.get ⟨i, hi⟩).status =
          (if i = 0 then (if rr.status = "running" then "pending" else "waiting")
           else "waiting") :=
  @first_step_pending_rest_waiting sampleEnv sampleWf sampleParams dbEmpty
    (runWorkflow sampleEnv sampleWf sampleParams dbEmpty).1
    (exOk (runWorkflow sampleEnv sampleWf sampleParams dbEmpty).2) rfl

/-- C3: run creation is atomic — whatever the outcome, the store is
either unchanged (any pre-transaction error or any insert failure rolls
everything back) or holds the full Run+Steps(+Stories) set of the
prepared rows, possibly with the run then marked `failed` by the
post-commit compensating update. -/
theorem run_creation_atomic {env : Env} {wf : WorkflowSpec}
    {p : RunWorkflowParams} {db db' : DbState} {res : Except String RunResult}
    (h : runWorkflow env wf p db = (db', res)) :
    db' = db ∨
    ∃ prep, prepare env wf p = .ok prep ∧
      (db' = { runs := db.runs ++ [prep.runRow],
               steps := db.steps ++ prep.stepRows,
               stories := db.stories ++ prep.storyRows } ∨
       db' = markRunFailed
          { runs := db.runs ++ [prep.runRow],
            steps := db.steps ++ prep.stepRows,
            stories := db.stories ++ prep.storyRows } prep.runRow.id env.now2) := by
  cases hprep : prepare env wf p with
  | error e =>
    rw [runWorkflow_eq_err hprep] at h
    exact Or.inl (congrArg Prod.fst h).symm
  | ok prep =>
    rw [runWorkflow_ok_prep hprep] at h
    cases htx : txBody env prep db with
    | error e =>
      rw [afterPrepare_tx_err htx] at h
      exact Or.inl (congrArg Prod.fst h).symm
    | ok db2 =>
      by_cases hc : env.cronOk
      · rw [afterPrepare_commit_ok htx hc] at h
        refine Or.inr ⟨prep, rfl, Or.inl ?_⟩
        have h1 : db2 = db' := congrArg Prod.fst h
        rw [← h1]
        exact txBody_ok htx
      · rw [afterPrepare_cron_fail htx (by simpa using hc)] at h
        refine Or.inr ⟨prep, rfl, Or.inr ?_⟩
        have h1 : markRunFailed db2 prep.runRow.id env.now2 = db' := congrArg Prod.fst h
        rw [← h1, txBody_ok htx]

/-- C3 witness: the sample creation, evaluated; the theorem places the
final store among the all-or-nothing shapes. -/
theorem run_creation_atomic_witness :
    (runWorkflow sampleEnv sampleWf sampleParams dbEmpty).1 = dbEmpty ∨
    ∃ prep, prepare sampleEnv sampleWf sampleParams = .ok prep ∧
      ((runWorkflow sampleEnv sampleWf sampleParams dbEmpty).1 =
         { runs := dbEmpty.runs ++ [prep.runRow],
           steps := dbEmpty.steps ++ prep.stepRows,
           stories := dbEmpty.stories ++ prep.storyRows } ∨
       (runWorkflow sampleEnv sampleWf sampleParams dbEmpty).1 = markRunFailed
          { runs := dbEmpty.runs ++ [prep.runRow],
            steps := dbEmpty.steps ++ prep.stepRows,
            stories := dbEmpty.stories ++ prep.storyRows } prep.runRow.id sampleEnv.now2) :=
  @run_creation_atomic sampleEnv sampleWf sampleParams dbEmpty
    (runWorkflow sampleEnv sampleWf sampleParams dbEmpty).1
    (runWorkflow sampleEnv sampleWf sampleParams dbEmpty).2 rfl

/-- C4: when the post-commit cron bootstrap fails after a committed
transaction, `runWorkflow` marks the just-created run `failed` (the last
run row of the final store has status `failed`) and re-raises the
failure instead of returning success. -/
theorem cron_failure_marks_run_failed {env : Env} {wf : WorkflowSpec}
    {p : RunWorkflowParams} {db : DbState} {prep : Prep} {db2 : DbState}
    (hcron : env.cronOk = false)
    (hprep : prepare env wf p = .ok prep)
    (htx : txBody env prep db = .ok db2) :
    runWorkflow env wf p db =
      (markRunFailed db2 prep.runRow.id env.now2, .error (cronFailMsg env)) ∧
    ∃ rr, (runWorkflow env wf p db).1.runs.getLast? = some rr ∧
      rr.status = "failed" := by
  have hrw : runWorkflow env wf p db =
      (markRunFailed db2 prep.runRow.id env.now2, .error (cronFailMsg env)) :=
    (runWorkflow_ok_prep hprep).trans (afterPrepare_cron_fail htx hcron)
  refine ⟨hrw, ?_⟩
  rw [hrw]
  rw [txBody_ok htx]
  refine ⟨{ prep.runRow with status := "failed", updatedAt := env.now2 }, ?_, rfl⟩
  unfold markRunFailed
  rw [List.map_append]
  simp only [List.map_cons, List.map_nil]
  rw [List.getLast?_concat]
  rw [if_pos (by simp)]

/-- C4 witness: the sample creation under a failing cron bootstrap; the
run row ends up `failed` and the call raises. -/
theorem cron_failure_marks_run_failed_witness :
    runWorkflow sampleEnvCronFail sampleWf sampleParams dbEmpty =
      (markRunFailed sampleTxDb samplePrep.runRow.id sampleEnvCronFail.now2,
       .error (cronFailMsg sampleEnvCronFail)) ∧
    ∃ rr, (runWorkflow sampleEnvCronFail sampleWf sampleParams dbEmpty).1.runs.getLast? =
        some rr ∧ rr.status = "failed" :=
  cron_failure_marks_run_failed rfl rfl rfl

/-- C5 counterexample: the claim says the task description is present
under the fixed key for every creation input; but with a specification
default context binding `task`, the created run's context holds the
specification default, not the task description — the spread
`{ task: ..., ...workflow.context }` lets defaults override the task. -/
theorem task_key_overridden_counterexample :
    plainParams.taskTitle = "Build the widget" ∧
    (runWorkflow sampleEnv wfTaskDefault plainParams dbEmpty).2 =
      .ok (exOk (runWorkflow sampleEnv wfTaskDefault plainParams dbEmpty).2) ∧
    ((runWorkflow sampleEnv wfTaskDefault plainParams dbEmpty).1.runs.map
      (fun rr => ctxGet rr.context "task")) = [some "spec-default-task"] ∧
    some ("spec-default-task" : String) ≠ some plainParams.taskTitle :=
  ⟨rfl, rfl, by decide, by decide⟩

/-- C5 amended: the initial context stores the task description under the
fixed key `task` before spreading the specification defaults, so the
task description is present under `task` for every creation input whose
specification defaults do not bind `task`; the caller repo override is
applied after the spread and wins over the defaults. -/
theorem initial_context_amended {env : Env} {wf : WorkflowSpec}
    {p : RunWorkflowParams} {db db' : DbState} {r : RunResult}
    (h : runWorkflow env wf p db = (db', .ok r))
    (htask : ∀ kv ∈ wf.context, kv.1 ≠ "task") :
    ∃ rr, db'.runs.getLast? = some rr ∧
      ctxGet rr.context "task" = some p.taskTitle ∧
      (truthy p.repo = true → ctxGet rr.context "repo" = p.repo) := by
  obtain ⟨prep, hprep, -, -, hdb⟩ := runWorkflow_ok_split h
  refine ⟨prep.runRow, by rw [hdb]; exact List.getLast?_concat _, ?_, ?_⟩
  · rcases prepare_ok_cases hprep with ⟨-, hpe⟩ | ⟨-, stories, -, hpe⟩
    · have hc : prep.runRow.context = blankSlate p (initialCtx wf p) := by
        rw [hpe]
        exact mkPrep_runRow_context env wf p none false _
      rw [hc, ctxGet_blankSlate p _ (by decide) (by decide) (by decide)]
      exact initialCtx_get_task htask
    · have hc : prep.runRow.context = blankSlate p
          (ctxSet (ctxSet (initialCtx wf p) "linear_mapping"
              (encodeMapping (stories.map (fun s => (s.id, s.linearIssueId, s.linearIdentifier)))))
            "linear_source" (p.storiesFrom.getD "")) := by
        rw [hpe]
        exact mkPrep_runRow_context env wf p (some stories) true _
      rw [hc, ctxGet_blankSlate p _ (by decide) (by decide) (by decide),
        ctxGet_ctxSet_ne _ (by decide) _, ctxGet_ctxSet_ne _ (by decide) _]
      exact initialCtx_get_task htask
  · intro hr
    rcases prepare_ok_cases hprep with ⟨-, hpe⟩ | ⟨-, stories, -, hpe⟩
    · have hc : prep.runRow.context = blankSlate p (initialCtx wf p) := by
        rw [hpe]
        exact mkPrep_runRow_context env wf p none false _
      rw [hc, ctxGet_blankSlate p _ (by decide) (by decide) (by decide)]
      exact initialCtx_get_repo hr
    · have hc : prep.runRow.context = blankSlate p
          (ctxSet (ctxSet (initialCtx wf p) "linear_mapping"
              (encodeMapping (stories.map (fun s => (s.id, s.linearIssueId, s.linearIdentifier)))))
            "linear_source" (p.storiesFrom.getD "")) := by
        rw [hpe]
        exact mkPrep_runRow_context env wf p (some stories) true _
      rw [hc, ctxGet_blankSlate p _ (by decide) (by decide) (by decide),
        ctxGet_ctxSet_ne _ (by decide) _, ctxGet_ctxSet_ne _ (by decide) _]
      exact initialCtx_get_repo hr

/-- C5 amended witness: the sample workflow binds no `task` default, so
the created run's context holds the task description, and the `--repo`
override is present. -/
theorem initial_context_amended_witness :
    (∀ kv ∈ sampleWf.context, kv.1 ≠ "task") ∧
    ∃ rr, ((runWorkflow sampleEnv sampleWf sampleParams dbEmpty).1).runs.getLast? = some rr ∧
      ctxGet rr.context "task" = some sampleParams.taskTitle ∧
      (truthy sampleParams.repo = true → ctxGet rr.context "repo" = sampleParams.repo) :=
  ⟨by decide,
   @initial_context_amended sampleEnv sampleWf sampleParams dbEmpty
     (runWorkflow sampleEnv sampleWf sampleParams dbEmpty).1
     (exOk (runWorkflow sampleEnv sampleWf sampleParams dbEmpty).2) rfl (by decide)⟩

/-- C6: on every successful creation with a story source, the imported
backlog is persisted in backlog order — position index equal to list
position, story id and title taken from the backlog item — with status
`pending`, retry count `0`, and the uniform retry ceiling `2` on every
story. -/
theorem stories_persisted_pending {env : Env} {wf : WorkflowSpec}
    {p : RunWorkflowParams} {db db' : DbState} {r : RunResult}
    (h : runWorkflow env wf p db = (db', .ok r))
    (ht : truthy p.storiesFrom = true) :
    ∃ backlog strows,
      importStories env.cli (p.storiesFrom.getD "") = .ok backlog ∧
      db'.stories = db.stories ++ strows ∧
      strows.length = backlog.length ∧
      ∀ (i : Nat) (hi : i < strows.length) (hb : i < backlog.length),
        (strows.get ⟨i, hi⟩).storyIndex = i ∧
        (strows.get ⟨i, hi⟩).status = "pending" ∧
        (strows.get ⟨i, hi⟩).retryCount = 0 ∧
        (strows.get ⟨i, hi⟩).maxRetries = 2 ∧
        (strows.get ⟨i, hi⟩).storyId = (backlog.get ⟨i, hb⟩).id ∧
        (strows.get ⟨i, hi⟩).title = (backlog.get ⟨i, hb⟩).title := by
  obtain ⟨prep, hprep, -, -, hdb⟩ := runWorkflow_ok_split h
  rcases prepare_ok_cases hprep with ⟨hf, -⟩ | ⟨-, stories, hst, hpe⟩
  · rw [ht] at hf
    exact absurd hf (by simp)
  · subst hpe
    refine ⟨stories, _, hst, by rw [hdb], ?_, ?_⟩
    · exact mkStoryRows_length _ _ _ _
    · intro i hi hb
      rw [mkPrep_story_get env wf p stories true _ i hi hb]
      exact ⟨rfl, rfl, rfl, rfl, rfl, rfl⟩

/-- C6 witness: the three imported sample stories are persisted in order
with indices 0,1,2, status `pending`, retries 0 and ceiling 2. -/
theorem stories_persisted_pending_witness :
    ∃ backlog strows,
      importStories sampleEnv.cli (sampleParams.storiesFrom.getD "") = .ok backlog ∧
      ((runWorkflow sampleEnv sampleWf sampleParams dbEmpty).1).stories =
        dbEmpty.stories ++ strows ∧
      strows.length = backlog.length ∧
      ∀ (i : Nat) (hi : i < strows.length) (hb : i < backlog.length),
        (strows.get ⟨i, hi⟩).storyIndex = i ∧
        (strows.get ⟨i, hi⟩).status = "pending" ∧
        (strows.get ⟨i, hi⟩).retryCount = 0 ∧
        (strows.get ⟨i, hi⟩).maxRetries = 2 ∧
        (strows.get ⟨i, hi⟩).storyId = (backlog.get ⟨i, hb⟩).id ∧
        (strows.get ⟨i, hi⟩).title = (backlog.get ⟨i, hb⟩).title :=
  @stories_persisted_pending sampleEnv sampleWf sampleParams dbEmpty
    (runWorkflow sampleEnv sampleWf sampleParams dbEmpty).1
    (exOk (runWorkflow sampleEnv sampleWf sampleParams dbEmpty).2) rfl rfl

/-- C7: on every successful creation the persisted steps carry position
indices `0, 1, 2, …` — 0-based and contiguous — even when specification
steps are elided by the skip filter. -/
theorem step_indices_contiguous {env : Env} {wf : WorkflowSpec}
    {p : RunWorkflowParams} {db db' : DbState} {r : RunResult}
    (h : runWorkflow env wf p db = (db', .ok r)) :
    ∃ srows, db'.steps = db.steps ++ srows ∧
      srows.map (fun s => s.stepIndex) = List.range srows.length := by
  obtain ⟨prep, hprep, -, -, hdb⟩ := runWorkflow_ok_split h
  obtain ⟨ls, skip, ctx1, hpe⟩ := prepare_ok_shape hprep
  subst hpe
  exact ⟨(mkPrep env wf p ls skip ctx1).stepRows, by rw [hdb],
    materializeSteps_stepIndex env wf skip (env.uuid 0) _⟩

/-- C7 witness: the sample creation elides the `plan` step (stories are
pre-supplied) and still numbers the surviving step from 0. -/
theorem step_indices_contiguous_witness :
    ∃ srows, ((runWorkflow sampleEnv sampleWf sampleParams dbEmpty).1).steps =
        dbEmpty.steps ++ srows ∧
      srows.map (fun s => s.stepIndex) = List.range srows.length :=
  @step_indices_contiguous sampleEnv sampleWf sampleParams dbEmpty
    (runWorkflow sampleEnv sampleWf sampleParams dbEmpty).1
    (exOk (runWorkflow sampleEnv sampleWf sampleParams dbEmpty).2) rfl

/-- C8: Linear sync failures are recovered locally and logged, never
propagated: for every CLI oracle `moveIssue`, `addComment` and
`ensureLabel` return normally, and whenever the label listing fails,
`ensureLabel` returns `none` with a logged warning. -/
theorem linear_sync_errors_swallowed (cli : LinearCli)
    (issueId stateName body lbl : String) (teamId : Option String) :
    (∃ logs, moveIssue cli issueId stateName teamId = .ok ((), logs)) ∧
    (∃ logs, addComment cli issueId body = .ok ((), logs)) ∧
    (∃ res logs, ensureLabel cli lbl = .ok (res, logs)) ∧
    (∀ e, cli.labelList = .error e →
      ∃ logs, ensureLabel cli lbl = .ok (none, logs) ∧ logs ≠ []) := by
  refine ⟨?_, ?_, ?_, ?_⟩
  · cases hb : moveIssueBody cli issueId stateName teamId with
    | ok u => exact ⟨[], by unfold moveIssue; rw [hb]⟩
    | error e =>
      exact ⟨["Failed to move Linear issue " ++ issueId ++ " to " ++ stateName ++ ": " ++ e],
        by unfold moveIssue; rw [hb]⟩
  · cases hb : cli.commentCreate issueId body with
    | ok u => exact ⟨[], by unfold addComment; rw [hb]⟩
    | error e =>
      exact ⟨["Failed to comment on Linear issue " ++ issueId ++ ": " ++ e],
        by unfold addComment; rw [hb]⟩
  · cases hb : ensureLabelBody cli lbl with
    | ok lblId => exact ⟨some lblId, [], by unfold ensureLabel; rw [hb]⟩
    | error e =>
      exact ⟨none, ["Failed to ensure Linear label " ++ lbl ++ ": " ++ e],
        by unfold ensureLabel; rw [hb]⟩
  · intro e he
    have hb : ensureLabelBody cli lbl = .error e := by
      unfold ensureLabelBody
      rw [he]
    refine ⟨["Failed to ensure Linear label " ++ lbl ++ ": " ++ e], ?_, ?_⟩
    · unfold ensureLabel
      rw [hb]
    · simp

/-- C8 witness: with a CLI on which every call fails, the three hooks
still return normally and `ensureLabel` yields `none` plus a warning. -/
theorem linear_sync_errors_swallowed_witness :
    (∃ logs, moveIssue failingCli "LIN-1" "In Progress" (some "team1") = .ok ((), logs)) ∧
    (∃ logs, addComment failingCli "LIN-1" "hello" = .ok ((), logs)) ∧
    (∃ res logs, ensureLabel failingCli "wbs/nick" = .ok (res, logs)) ∧
    (∃ logs, ensureLabel failingCli "wbs/nick" = .ok (none, logs) ∧ logs ≠ []) := by
  obtain ⟨h1, h2, h3, h4⟩ := linear_sync_errors_swallowed failingCli
    "LIN-1" "In Progress" "hello" "wbs/nick" (some "team1")
  exact ⟨h1, h2, h3, h4 "linear CLI failed: label list" rfl⟩

/-- C9: the value `runWorkflow` returns to its caller reports status
`running` on every successful creation — even when the persisted run is
`paused` — so the returned status can disagree with the stored one. -/
theorem returned_status_always_running {env : Env} {wf : WorkflowSpec}
    {p : RunWorkflowParams} {db db' : DbState} {r : RunResult}
    (h : runWorkflow env wf p db = (db', .ok r)) :
    r.status = "running" := by
  obtain ⟨prep, hprep, -, hr, -⟩ := runWorkflow_ok_split h
  obtain ⟨ls, skip, ctx1, hpe⟩ := prepare_ok_shape hprep
  rw [hr, hpe]
  exact mkPrep_result_status env wf p ls skip ctx1

/-- C9 witness: the sample creation persists a `paused` run yet returns
status `running` to the caller. -/
theorem returned_status_always_running_witness :
    (exOk (runWorkflow sampleEnv sampleWf sampleParams dbEmpty).2).status = "running" ∧
    ((runWorkflow sampleEnv sampleWf sampleParams dbEmpty).1.runs.map
      (fun rr => rr.status)) = ["paused"] :=
  ⟨@returned_status_always_running sampleEnv sampleWf sampleParams dbEmpty
     (runWorkflow sampleEnv sampleWf sampleParams dbEmpty).1
     (exOk (runWorkflow sampleEnv sampleWf sampleParams dbEmpty).2) rfl,
   by decide⟩

/-- C10: `exportProjectStories` throws when the project has no issues;
otherwise it returns the issues sorted by priority ascending with 0 (no
priority) mapped to 5, ties broken by `sortOrder` ascending, and assigns
the sequential ids `S01`, `S02`, … in that sorted order. -/
theorem export_project_stories_spec (cli : LinearCli) (pid : String) :
    (cli.projectIssues pid = .ok [] →
      exportProjectStories cli pid =
        .error ("No issues found in Linear project " ++ pid)) ∧
    (∀ issues, cli.projectIssues pid = .ok issues → issues ≠ [] →
      ∃ sorted, List.Perm sorted issues ∧
        List.Pairwise (fun a b =>
          (if a.priority = 0 then 5 else a.priority) <
              (if b.priority = 0 then 5 else b.priority) ∨
          ((if a.priority = 0 then 5 else a.priority) =
              (if b.priority = 0 then 5 else b.priority) ∧
            a.sortOrder ≤ b.sortOrder)) sorted ∧
        exportProjectStories cli pid =
          .ok (sorted.enum.map (fun pr => mkStoryFromIssue pr.1 pr.2)) ∧
        (sorted.enum.map (fun pr => mkStoryFromIssue pr.1 pr.2)).map (fun s => s.id) =
          (List.range issues.length).map storyIdFor) := by
  constructor
  · intro he
    unfold exportProjectStories
    rw [he]
    rfl
  · intro issues he hne
    refine ⟨sortIssues issues, List.perm_insertionSort _ _, ?_, ?_, ?_⟩
    · have hs := List.sorted_insertionSort issueRel issues
      refine hs.imp ?_
      intro a b hab
      have hab' : issueLe a b = true := hab
      unfold issueLe at hab'
      by_cases hpe : priorityKey a.priority = priorityKey b.priority
      · rw [if_pos hpe] at hab'
        simp only [decide_eq_true_eq] at hab'
        exact Or.inr ⟨hpe, hab'⟩
      · rw [if_neg hpe] at hab'
        simp only [decide_eq_true_eq] at hab'
        exact Or.inl hab'
    · have hni : ¬ (issues.isEmpty = true) := by
        cases issues with
        | nil => exact absurd rfl hne
        | cons a l => simp
      simp only [exportProjectStories, he]
      rw [if_neg hni]
    · rw [List.map_map]
      have h1 : ((fun s : LinearStory => s.id) ∘
          (fun pr : Nat × LinearIssue => mkStoryFromIssue pr.1 pr.2)) =
          (fun pr : Nat × LinearIssue => storyIdFor pr.1) := rfl
      have h2 : (fun pr : Nat × LinearIssue => storyIdFor pr.1) =
          storyIdFor ∘ Prod.fst := rfl
      have h3 : (sortIssues issues).length = issues.length :=
        (List.perm_insertionSort issueRel issues).length_eq
      rw [h1, h2, ← List.map_map, List.enum_map_fst, h3]

/-- C10 witness: the three sample issues sort to priorities (2,2,5) with
the tie broken by sortOrder, get ids S01–S03, and an empty project
raises. -/
theorem export_project_stories_spec_witness :
    (∃ sorted, List.Perm sorted sampleIssues ∧
      List.Pairwise (fun a b =>
        (if a.priority = 0 then 5 else a.priority) <
            (if b.priority = 0 then 5 else b.priority) ∨
        ((if a.priority = 0 then 5 else a.priority) =
            (if b.priority = 0 then 5 else b.priority) ∧
          a.sortOrder ≤ b.sortOrder)) sorted ∧
      exportProjectStories sampleCli "proj1" =
        .ok (sorted.enum.map (fun pr => mkStoryFromIssue pr.1 pr.2)) ∧
      (sorted.enum.map (fun pr => mkStoryFromIssue pr.1 pr.2)).map (fun s => s.id) =
        (List.range sampleIssues.length).map storyIdFor) ∧
    exportProjectStories emptyProjectCli "proj1" =
      .error ("No issues found in Linear project " ++ "proj1") := by
  obtain ⟨hempty, hmain⟩ := export_project_stories_spec sampleCli "proj1"
  obtain ⟨hempty2, -⟩ := export_project_stories_spec emptyProjectCli "proj1"
  exact ⟨hmain sampleIssues rfl (by decide), hempty2 rfl⟩

end Antfarm
